import Mathlib

/-!
Verification development for the gift-list claim-consistency core.

The DynamoDB-backed repository (`src/backend/src/services/dynamodb.ts`,
bundled in the repository sources) is embedded shallowly: the single
logical table becomes an association list from structured keys to items,
and every repository operation becomes a pure function from a store to a
result together with the possibly-updated store.  Generated identifiers
and clock readings (`uuidv4()`, `new Date()`) are passed in explicitly.
-/

namespace GiftList

/-- Gift.status enum from the source types: 'available' | 'claimed'. -/
inductive GStatus where
  | available
  | claimed
deriving DecidableEq, Repr

/-- A stored List record (ListItem in the source, index attributes elided:
they are derived from the data fields). -/
structure ListItem where
  id : String
  ownerId : String
  title : String
  hideClaimedGifts : Bool
  shareCode : String
  createdAt : Nat
  updatedAt : Nat
deriving DecidableEq, Repr

/-- A stored Gift record (GiftItem in the source, index attributes elided). -/
structure GiftItem where
  id : String
  listId : String
  title : String
  description : String
  url : Option String
  status : GStatus
  claimedBy : Option String
  claimerMessage : Option String
  claimedAt : Option Nat
  createdAt : Nat
  updatedAt : Nat
  sortOrder : Nat
deriving DecidableEq, Repr

/-- Sort-key part of the single-table key scheme: `METADATA` for a List
record, `GIFT#{giftId}` for a Gift record. -/
inductive SortKey where
  | metadata
  | gift (giftId : String)
deriving DecidableEq, Repr

/-- Primary key: partition `LIST#{listId}` plus the sort key. -/
structure Key where
  listPK : String
  sk : SortKey
deriving DecidableEq, Repr

/-- A stored item is either a List record or a Gift record. -/
inductive Item where
  | listI (l : ListItem)
  | giftI (g : GiftItem)
deriving DecidableEq, Repr

/-- The single logical DynamoDB table, as an association list. -/
abbrev Store := List (Key × Item)

deriving instance DecidableEq for Except

/-- GetItem: first entry with the given key. -/
def Store.get : Store → Key → Option Item
  | [], _ => none
  | e :: s, k => if e.1 = k then some e.2 else Store.get s k

/-- UpdateItem on an existing key: rewrite the item in place. -/
def Store.updateAt (s : Store) (k : Key) (f : Item → Item) : Store :=
  s.map (fun e => if e.1 = k then (e.1, f e.2) else e)

/-- PutItem: insert, replacing any entry with the same key. -/
def Store.put (s : Store) (k : Key) (v : Item) : Store :=
  (k, v) :: s.filter (fun e => ¬ e.1 = k)

/-- DeleteItem. -/
def Store.del (s : Store) (k : Key) : Store :=
  s.filter (fun e => ¬ e.1 = k)

/-- A batch of deletes, applied key by key. -/
def deleteKeys (ks : List Key) (s : Store) : Store :=
  ks.foldl (fun acc k => acc.del k) s

/-- The error taxonomy the repository raises (ApiError in the source). -/
inductive ErrCode where
  | validation
  | unauthorized
  | forbidden
  | notFound
  | alreadyClaimed
deriving DecidableEq, Repr

/-- ApiError: code plus HTTP status. -/
structure ApiErr where
  code : ErrCode
  statusCode : Nat
deriving DecidableEq, Repr

def notFoundErr : ApiErr := ⟨ErrCode.notFound, 404⟩

def forbiddenErr : ApiErr := ⟨ErrCode.forbidden, 403⟩

def alreadyClaimedErr : ApiErr := ⟨ErrCode.alreadyClaimed, 409⟩

/-- getListById: GetItem at (LIST#listId, METADATA). -/
def getListById (listId : String) (s : Store) : Option ListItem :=
  match s.get ⟨listId, SortKey.metadata⟩ with
  | some (Item.listI l) => some l
  | _ => none

/-- getGiftsByList: query PK = LIST#listId and SK begins_with GIFT#. -/
def getGiftsByList (listId : String) (s : Store) : List GiftItem :=
  s.filterMap (fun e =>
    match e with
    | (⟨pk, SortKey.gift _⟩, Item.giftI g) => if pk = listId then some g else none
    | _ => none)

/-- The GSI1 matches for a gift id: gift records carry GSI1PK = GIFT#{id}. -/
def giftMatches (giftId : String) (s : Store) : List GiftItem :=
  s.filterMap (fun e =>
    match e.2 with
    | Item.giftI g => if g.id = giftId then some g else none
    | _ => none)

/-- getGiftById: GSI1 query on GIFT#{giftId}, taking the first result. -/
def getGiftById (giftId : String) (s : Store) : Option GiftItem :=
  (giftMatches giftId s).head?

/-- CreateListRequest. -/
structure CreateListReq where
  title : String
  hideClaimedGifts : Bool
deriving DecidableEq, Repr

/-- createList: write one fresh List record (id, shareCode, now supplied). -/
def createList (ownerId : String) (req : CreateListReq) (id shareCode : String)
    (now : Nat) (s : Store) : ListItem × Store :=
  let item : ListItem :=
    ⟨id, ownerId, req.title, req.hideClaimedGifts, shareCode, now, now⟩
  (item, s.put ⟨id, SortKey.metadata⟩ (Item.listI item))

/-- An owner's lists, enriched with gift counts, as getListsByOwner returns. -/
structure EnrichedList where
  base : ListItem
  giftCount : Nat
  claimedCount : Nat
deriving DecidableEq, Repr

/-- GSI1 query OWNER#{ownerId}: the stored List records of this owner. -/
def listsByOwnerRaw (ownerId : String) (s : Store) : List ListItem :=
  s.filterMap (fun e =>
    match e.2 with
    | Item.listI l => if l.ownerId = ownerId then some l else none
    | _ => none)

/-- getListsByOwner: each list enriched with giftCount and claimedCount
computed by fetching that list's gifts. -/
def getListsByOwner (ownerId : String) (s : Store) : List EnrichedList :=
  (listsByOwnerRaw ownerId s).map (fun l =>
    let gifts := getGiftsByList l.id s
    ⟨l, gifts.length, (gifts.filter (fun g => g.status = GStatus.claimed)).length⟩)

/-- getListByShareCode: GSI2 query SHARE#{shareCode}, first result. -/
def getListByShareCode (shareCode : String) (s : Store) : Option ListItem :=
  (s.filterMap (fun e =>
    match e.2 with
    | Item.listI l => if l.shareCode = shareCode then some l else none
    | _ => none)).head?

/-- UpdateListRequest: only supplied fields are merged. -/
structure UpdateListReq where
  title : Option String
  hideClaimedGifts : Option Bool
deriving DecidableEq, Repr

/-- The merge updateList performs on the stored record. -/
def applyListUpdate (req : UpdateListReq) (now : Nat) (l : ListItem) : ListItem :=
  { l with
    title := req.title.getD l.title,
    hideClaimedGifts := req.hideClaimedGifts.getD l.hideClaimedGifts,
    updatedAt := now }

/-- updateList: NotFound if missing, Forbidden unless caller is the owner,
otherwise merge provided fields, refresh updatedAt and re-read. -/
def updateList (listId ownerId : String) (req : UpdateListReq) (now : Nat)
    (s : Store) : Except ApiErr ListItem × Store :=
  match getListById listId s with
  | none => (Except.error notFoundErr, s)
  | some existing =>
    if existing.ownerId ≠ ownerId then (Except.error forbiddenErr, s)
    else
      let s1 := s.updateAt ⟨listId, SortKey.metadata⟩ (fun it =>
        match it with
        | Item.listI l => Item.listI (applyListUpdate req now l)
        | i => i)
      match getListById listId s1 with
      | some l => (Except.ok l, s1)
      | none => (Except.error notFoundErr, s1)

/-- Chunking worker, structurally recursive on a fuel bound (the fuel is
initialized to the list length, which the recursion never exceeds). -/
def toChunksAux (n : Nat) : Nat → List α → List (List α)
  | _, [] => []
  | 0, l => [l]
  | fuel + 1, x :: xs => (x :: xs.take n) :: toChunksAux n fuel (xs.drop n)

/-- Chunks of size n+1, as Array.prototype.slice-based chunking produces. -/
def toChunks (n : Nat) (l : List α) : List (List α) :=
  toChunksAux n l.length l

/-- The keys deleteList enumerates: the METADATA record first, then every
gift record of the partition. -/
def deleteListKeys (listId : String) (s : Store) : List Key :=
  ⟨listId, SortKey.metadata⟩ ::
    (getGiftsByList listId s).map (fun g => ⟨listId, SortKey.gift g.id⟩)

/-- The BatchWrite chunks deleteList issues: at most 25 keys per batch. -/
def deleteListBatches (listId : String) (s : Store) : List (List Key) :=
  toChunks 24 (deleteListKeys listId s)

/-- deleteList: ownership-checked cascade delete of the list and its gifts,
in batches of at most 25. -/
def deleteList (listId ownerId : String) (s : Store) :
    Except ApiErr Unit × Store :=
  match getListById listId s with
  | none => (Except.error notFoundErr, s)
  | some existing =>
    if existing.ownerId ≠ ownerId then (Except.error forbiddenErr, s)
    else
      (Except.ok (),
       (deleteListBatches listId s).foldl (fun acc b => deleteKeys b acc) s)

/-- The store after only the first k delete batches ran before a crash. -/
def applyFirstBatches (listId : String) (k : Nat) (s : Store) : Store :=
  ((deleteListBatches listId s).take k).foldl (fun acc b => deleteKeys b acc) s

/-- CreateGiftRequest. -/
structure CreateGiftReq where
  title : String
  description : String
  url : Option String
  sortOrder : Nat
deriving DecidableEq, Repr

/-- createGift: list must exist and belong to the caller; the new gift
starts available with no claim fields. -/
def createGift (listId ownerId : String) (req : CreateGiftReq) (id : String)
    (now : Nat) (s : Store) : Except ApiErr GiftItem × Store :=
  match getListById listId s with
  | none => (Except.error notFoundErr, s)
  | some list =>
    if list.ownerId ≠ ownerId then (Except.error forbiddenErr, s)
    else
      let item : GiftItem :=
        ⟨id, listId, req.title, req.description, req.url, GStatus.available,
         none, none, none, now, now, req.sortOrder⟩
      (Except.ok item, s.put ⟨listId, SortKey.gift id⟩ (Item.giftI item))

/-- UpdateGiftRequest: only supplied fields are merged. -/
structure UpdateGiftReq where
  title : Option String
  description : Option String
  url : Option String
  sortOrder : Option Nat
deriving DecidableEq, Repr

/-- The merge updateGift performs on the stored record. -/
def applyGiftUpdate (req : UpdateGiftReq) (now : Nat) (g : GiftItem) : GiftItem :=
  { g with
    title := req.title.getD g.title,
    description := req.description.getD g.description,
    url := match req.url with | some u => some u | none => g.url,
    sortOrder := req.sortOrder.getD g.sortOrder,
    updatedAt := now }

/-- updateGift: NotFound if the gift is missing; Forbidden if the parent
list is missing or the caller is not its owner; else merge and re-read. -/
def updateGift (giftId ownerId : String) (req : UpdateGiftReq) (now : Nat)
    (s : Store) : Except ApiErr GiftItem × Store :=
  match getGiftById giftId s with
  | none => (Except.error notFoundErr, s)
  | some gift =>
    match getListById gift.listId s with
    | none => (Except.error forbiddenErr, s)
    | some list =>
      if list.ownerId ≠ ownerId then (Except.error forbiddenErr, s)
      else
        let s1 := s.updateAt ⟨gift.listId, SortKey.gift giftId⟩ (fun it =>
          match it with
          | Item.giftI g => Item.giftI (applyGiftUpdate req now g)
          | i => i)
        match getGiftById giftId s1 with
        | some g => (Except.ok g, s1)
        | none => (Except.error notFoundErr, s1)

/-- deleteGift: same resolution and ownership gate, then a single delete. -/
def deleteGift (giftId ownerId : String) (s : Store) :
    Except ApiErr Unit × Store :=
  match getGiftById giftId s with
  | none => (Except.error notFoundErr, s)
  | some gift =>
    match getListById gift.listId s with
    | none => (Except.error forbiddenErr, s)
    | some list =>
      if list.ownerId ≠ ownerId then (Except.error forbiddenErr, s)
      else (Except.ok (), s.del ⟨gift.listId, SortKey.gift giftId⟩)

/-- ClaimGiftRequest. -/
structure ClaimReq where
  claimedBy : String
  claimerMessage : Option String
deriving DecidableEq, Repr

/-- The write claimGift performs: all claim fields set together. -/
def applyClaim (r : ClaimReq) (now : Nat) (g : GiftItem) : GiftItem :=
  { g with
    status := GStatus.claimed,
    claimedBy := some r.claimedBy,
    claimerMessage := r.claimerMessage,
    claimedAt := some now,
    updatedAt := now }

/-- The store's atomic conditional update: applies the claim write only if
the stored status at the key is still available; otherwise reports a
conditional-check failure (none) and leaves the store untouched. -/
def condClaimWrite (k : Key) (r : ClaimReq) (now : Nat) (s : Store) :
    Option Store :=
  match s.get k with
  | some (Item.giftI g) =>
    if g.status = GStatus.available then
      some (s.updateAt k (fun it =>
        match it with
        | Item.giftI g0 => Item.giftI (applyClaim r now g0)
        | i => i))
    else none
  | _ => none

/-- claimGift: resolve by id (NotFound if absent), then one conditional
update; a conditional-check failure becomes ALREADY_CLAIMED (409); on
success re-read and return the updated gift. -/
def claimGift (giftId : String) (r : ClaimReq) (now : Nat) (s : Store) :
    Except ApiErr GiftItem × Store :=
  match getGiftById giftId s with
  | none => (Except.error notFoundErr, s)
  | some gift =>
    match condClaimWrite ⟨gift.listId, SortKey.gift giftId⟩ r now s with
    | none => (Except.error alreadyClaimedErr, s)
    | some s1 =>
      match getGiftById giftId s1 with
      | some g => (Except.ok g, s1)
      | none => (Except.error notFoundErr, s1)

/-- A serialization of the conditional writes of concurrent claimGift
calls on one gift key: the store applies them one at a time (per-item
atomicity); the Bool trace records which call's condition held. -/
def claimRace (k : Key) (rs : List (ClaimReq × Nat)) (s : Store) :
    List Bool × Store :=
  match rs with
  | [] => ([], s)
  | (r, now) :: rest =>
    match condClaimWrite k r now s with
    | some s1 =>
      let p := claimRace k rest s1
      (true :: p.1, p.2)
    | none =>
      let p := claimRace k rest s
      (false :: p.1, p.2)

/-- The write unclaimGift performs: status reset, claim fields removed. -/
def applyUnclaim (now : Nat) (g : GiftItem) : GiftItem :=
  { g with
    status := GStatus.available,
    claimedBy := none,
    claimerMessage := none,
    claimedAt := none,
    updatedAt := now }

/-- unclaimGift: resolution and ownership gate as updateGift, then one
unconditional update clearing the claim fields. -/
def unclaimGift (giftId ownerId : String) (now : Nat) (s : Store) :
    Except ApiErr GiftItem × Store :=
  match getGiftById giftId s with
  | none => (Except.error notFoundErr, s)
  | some gift =>
    match getListById gift.listId s with
    | none => (Except.error forbiddenErr, s)
    | some list =>
      if list.ownerId ≠ ownerId then (Except.error forbiddenErr, s)
      else
        let s1 := s.updateAt ⟨gift.listId, SortKey.gift giftId⟩ (fun it =>
          match it with
          | Item.giftI g => Item.giftI (applyUnclaim now g)
          | i => i)
        match getGiftById giftId s1 with
        | some g => (Except.ok g, s1)
        | none => (Except.error notFoundErr, s1)

/-- The public projection of a gift (handlers/public.ts): id, title,
description, url, status only. -/
structure PublicGift where
  id : String
  title : String
  description : String
  url : Option String
  status : GStatus
deriving DecidableEq, Repr

def toPublicGift (g : GiftItem) : PublicGift :=
  ⟨g.id, g.title, g.description, g.url, g.status⟩

/-- getPublicGifts (gift part, list already resolved by share code): when
hideClaimedGifts, only available gifts; either way only public fields. -/
def getPublicGifts (l : ListItem) (s : Store) : List PublicGift :=
  let gifts := getGiftsByList l.id s
  if l.hideClaimedGifts then
    (gifts.filter (fun g => g.status = GStatus.available)).map toPublicGift
  else
    gifts.map toPublicGift

/-- Key/payload agreement of one stored entry: a METADATA key holds a List
record whose id matches the partition; a GIFT# key holds a Gift record
whose id and listId match the key. -/
def entryWF : Key × Item → Bool
  | (⟨lid, SortKey.metadata⟩, Item.listI l) => decide (l.id = lid)
  | (⟨lid, SortKey.gift gid⟩, Item.giftI g) =>
      decide (g.id = gid) && decide (g.listId = lid)
  | _ => false

/-- The gift ids present in the store (the GSI1 partition keys of gifts). -/
def giftIdsOf (s : Store) : List String :=
  s.filterMap (fun e =>
    match e.2 with
    | Item.giftI g => some g.id
    | _ => none)

/-- Store well-formedness: entries agree with their keys, primary keys are
unique (DynamoDB guarantees this), and gift ids are globally unique
(UUID assignment). -/
def WF (s : Store) : Prop :=
  (∀ e ∈ s, entryWF e = true) ∧ (s.map Prod.fst).Nodup ∧ (giftIdsOf s).Nodup

/-- The gift-state invariant on one record: claimedBy and claimedAt are
present exactly when the status is claimed, and a claimerMessage can only
be present on a claimed gift. -/
def giftOK (g : GiftItem) : Bool :=
  (decide (g.status = GStatus.claimed) == g.claimedBy.isSome) &&
  (decide (g.status = GStatus.claimed) == g.claimedAt.isSome) &&
  (!g.claimerMessage.isSome || decide (g.status = GStatus.claimed))

def itemOK : Item → Bool
  | Item.giftI g => giftOK g
  | Item.listI _ => true

/-- The gift-state invariant over the whole store. -/
def InvStore (s : Store) : Prop := ∀ e ∈ s, itemOK e.2 = true

/-- Two items carry the same claim state (status and claimant fields). -/
def sameClaimState : Item → Item → Prop
  | Item.giftI a, Item.giftI b =>
      a.status = b.status ∧ a.claimedBy = b.claimedBy ∧
      a.claimerMessage = b.claimerMessage ∧ a.claimedAt = b.claimedAt
  | Item.listI _, Item.listI _ => True
  | _, _ => False

/-- Concrete records used to instantiate theorems with hypotheses. -/
def demoList : ListItem := ⟨"L1", "u1", "Birthday", false, "sc1", 0, 0⟩

def demoGiftA : GiftItem :=
  ⟨"g1", "L1", "Lego", "", none, GStatus.available, none, none, none, 0, 0, 0⟩

def demoGiftC : GiftItem :=
  ⟨"g2", "L1", "Book", "", none, GStatus.claimed, some "Alice", none, some 1,
   0, 1, 1⟩

def demoStore : Store :=
  [(⟨"L1", SortKey.metadata⟩, Item.listI demoList),
   (⟨"L1", SortKey.gift "g1"⟩, Item.giftI demoGiftA),
   (⟨"L1", SortKey.gift "g2"⟩, Item.giftI demoGiftC)]

/-- The demo list with hideClaimedGifts switched on. -/
def demoListHide : ListItem := { demoList with hideClaimedGifts := true }

/-- A store holding an orphaned gift: its parent list record is absent
(the reachable state the repository contract admits after a crashed
cascade delete). -/
def orphanGift : GiftItem :=
  ⟨"g9", "L9", "Puzzle", "", none, GStatus.available, none, none, none,
   0, 0, 0⟩

def orphanStore : Store :=
  [(⟨"L9", SortKey.gift "g9"⟩, Item.giftI orphanGift)]

def noUpdate : UpdateGiftReq := ⟨none, none, none, none⟩

/-- A list with 26 gifts: its cascade delete needs two batches (27 keys). -/
def crashGift (i : Nat) : GiftItem :=
  ⟨"g" ++ toString i, "L", "t", "", none, GStatus.available, none, none, none,
   0, 0, i⟩

def bigStore : Store :=
  (⟨"L", SortKey.metadata⟩, Item.listI ⟨"L", "u", "T", false, "sc", 0, 0⟩) ::
    (List.range 26).map (fun i =>
      (⟨"L", SortKey.gift ("g" ++ toString i)⟩, Item.giftI (crashGift i)))

/-- The store after deleteList("L") crashed having applied only its first
batch: the METADATA record is gone, two gift records remain. -/
def crashStore : Store := applyFirstBatches "L" 1 bigStore

/-- Entry-level predicate: a gift record of this list's partition. -/
def isGiftEntryOf (listId : String) : Key × Item → Bool
  | (⟨pk, SortKey.gift _⟩, Item.giftI _) => decide (pk = listId)
  | _ => false

/-- Entry-level predicate: a claimed gift record of this list. -/
def isClaimedGiftEntry (listId : String) : Key × Item → Bool
  | (⟨pk, SortKey.gift _⟩, Item.giftI g) =>
      decide (pk = listId) && decide (g.status = GStatus.claimed)
  | _ => false

instance (s : Store) : Decidable (WF s) := by
  unfold WF
  infer_instance

instance (s : Store) : Decidable (InvStore s) := by
  unfold InvStore
  infer_instance

theorem mem_del {s : Store} {k : Key} {e : Key × Item} :
    e ∈ s.del k ↔ e ∈ s ∧ ¬ e.1 = k := by
  simp [Store.del, List.mem_filter]

theorem deleteKeys_cons (k : Key) (ks : List Key) (s : Store) :
    deleteKeys (k :: ks) s = deleteKeys ks (s.del k) := rfl

theorem mem_deleteKeys {ks : List Key} {s : Store} {e : Key × Item} :
    e ∈ deleteKeys ks s ↔ e ∈ s ∧ e.1 ∉ ks := by
  induction ks generalizing s with
  | nil => simp [deleteKeys]
  | cons k ks ih =>
    rw [deleteKeys_cons, ih]
    simp [mem_del]
    tauto

theorem get_eq_none {s : Store} {k : Key} :
    s.get k = none ↔ ∀ e ∈ s, ¬ e.1 = k := by
  induction s with
  | nil => simp [Store.get]
  | cons e t ih => by_cases h : e.1 = k <;> simp [Store.get, h, ih]

theorem get_of_mem_nodup {s : Store} {k : Key} {v : Item}
    (hnd : (s.map Prod.fst).Nodup) (hm : (k, v) ∈ s) : s.get k = some v := by
  induction s with
  | nil => cases hm
  | cons e t ih =>
    simp only [List.map_cons, List.nodup_cons] at hnd
    rcases List.mem_cons.mp hm with he | ht
    · rw [← he]
      simp [Store.get]
    · have hk : ¬ e.1 = k := by
        intro hek
        exact hnd.1 (hek ▸ List.mem_map_of_mem Prod.fst ht)
      simp only [Store.get, hk, if_false]
      exact ih hnd.2 ht

theorem mem_of_get {s : Store} {k : Key} {v : Item} (h : s.get k = some v) :
    (k, v) ∈ s := by
  induction s with
  | nil => simp [Store.get] at h
  | cons e t ih =>
    by_cases hk : e.1 = k
    · simp only [Store.get, hk, if_true, Option.some.injEq] at h
      rcases e with ⟨ek, ev⟩
      simp only at hk h
      rw [← hk, ← h]
      exact List.mem_cons_self _ _
    · simp only [Store.get, hk, if_false] at h
      exact List.mem_cons_of_mem _ (ih h)

theorem get_updateAt_self {s : Store} {k : Key} {f : Item → Item} :
    (s.updateAt k f).get k = (s.get k).map f := by
  induction s with
  | nil => rfl
  | cons e t ih =>
    by_cases h : e.1 = k <;>
      simp only [Store.updateAt, List.map_cons, Store.get, h, if_true,
        if_false, Option.map_some', Option.map_none'] at ih ⊢ <;>
      simp [h, ih, Store.updateAt]

theorem get_updateAt_ne {s : Store} {k k' : Key} {f : Item → Item}
    (h : ¬ k' = k) : (s.updateAt k f).get k' = s.get k' := by
  induction s with
  | nil => rfl
  | cons e t ih =>
    simp only [Store.updateAt, List.map_cons]
    by_cases he : e.1 = k
    · have hne : ¬ e.1 = k' := by
        intro hh
        apply h
        rw [← hh, he]
      rw [if_pos he]
      simp only [Store.get]
      rw [if_neg hne, if_neg hne]
      exact ih
    · rw [if_neg he]
      simp only [Store.get]
      by_cases he' : e.1 = k'
      · rw [if_pos he', if_pos he']
      · rw [if_neg he', if_neg he']
        exact ih

theorem updateAt_updateAt {s : Store} {k : Key} {f g : Item → Item} :
    (s.updateAt k f).updateAt k g = s.updateAt k (fun i => g (f i)) := by
  induction s with
  | nil => rfl
  | cons e t ih =>
    by_cases h : e.1 = k <;>
      simp only [Store.updateAt, List.map_cons, h, if_true, if_false] at ih ⊢ <;>
      simp [h, Store.updateAt] at ih ⊢ <;> exact ih

theorem deleteKeys_append (a b : List Key) (s : Store) :
    deleteKeys (a ++ b) s = deleteKeys b (deleteKeys a s) := by
  simp [deleteKeys, List.foldl_append]

theorem foldl_deleteKeys (bs : List (List Key)) (s : Store) :
    bs.foldl (fun acc b => deleteKeys b acc) s = deleteKeys bs.flatten s := by
  induction bs generalizing s with
  | nil => simp [deleteKeys]
  | cons b bs ih =>
    rw [List.foldl_cons, ih, List.flatten_cons, deleteKeys_append]

theorem toChunksAux_flatten (n fuel : Nat) (l : List α)
    (h : l.length ≤ fuel) : (toChunksAux n fuel l).flatten = l := by
  induction fuel generalizing l with
  | zero =>
    cases l with
    | nil => rfl
    | cons x xs => simp at h
  | succ m ih =>
    cases l with
    | nil => rfl
    | cons x xs =>
      show ((x :: xs.take n) :: toChunksAux n m (xs.drop n)).flatten = x :: xs
      rw [List.flatten_cons, ih (xs.drop n)
        (by simp only [List.length_drop]; simp at h; omega)]
      simp

theorem toChunks_flatten (n : Nat) (l : List α) :
    (toChunks n l).flatten = l :=
  toChunksAux_flatten n l.length l le_rfl

theorem toChunksAux_mem_length {n fuel : Nat} {l c : List α}
    (hf : l.length ≤ fuel) (h : c ∈ toChunksAux n fuel l) :
    c.length ≤ n + 1 := by
  induction fuel generalizing l with
  | zero =>
    cases l with
    | nil => simp [toChunksAux] at h
    | cons x xs => simp at hf
  | succ m ih =>
    cases l with
    | nil => simp [toChunksAux] at h
    | cons x xs =>
      have h2 : c = x :: xs.take n ∨ c ∈ toChunksAux n m (xs.drop n) :=
        List.mem_cons.mp h
      rcases h2 with rfl | h3
      · simp only [List.length_cons, List.length_take]
        omega
      · exact ih (by simp only [List.length_drop]; simp at hf; omega) h3

theorem toChunks_mem_length {n : Nat} {l : List α} {c : List α}
    (h : c ∈ toChunks n l) : c.length ≤ n + 1 :=
  toChunksAux_mem_length le_rfl h

theorem filterMap_congr_mem {l : List α} {f g : α → Option β}
    (h : ∀ x ∈ l, f x = g x) : l.filterMap f = l.filterMap g := by
  induction l with
  | nil => rfl
  | cons a t ih =>
    simp only [List.filterMap_cons, h a (List.mem_cons_self a t),
      ih (fun x hx => h x (List.mem_cons_of_mem a hx))]

theorem sameClaimState_refl (i : Item) : sameClaimState i i := by
  cases i <;> simp [sameClaimState]

theorem giftProj_eq_some {e : Key × Item} {gid : String} {g : GiftItem} :
    (match e.2 with
     | Item.giftI x => if x.id = gid then some x else none
     | _ => none) = some g ↔ e.2 = Item.giftI g ∧ g.id = gid := by
  rcases e with ⟨k, i⟩
  cases i with
  | listI l => simp
  | giftI x =>
    by_cases h : x.id = gid
    · simp only [h, if_true]
      constructor
      · rintro hx
        cases hx
        exact ⟨rfl, h⟩
      · rintro ⟨hx, _⟩
        cases hx
        rfl
    · simp only [h, if_false]
      constructor
      · rintro ⟨⟩
      · rintro ⟨hx, hid⟩
        cases hx
        exact absurd hid h

theorem mem_giftMatches {gid : String} {s : Store} {g : GiftItem} :
    g ∈ giftMatches gid s ↔ (∃ e ∈ s, e.2 = Item.giftI g) ∧ g.id = gid := by
  rw [giftMatches, List.mem_filterMap]
  constructor
  · rintro ⟨e, he, hsome⟩
    rcases giftProj_eq_some.mp hsome with ⟨h1, h2⟩
    exact ⟨⟨e, he, h1⟩, h2⟩
  · rintro ⟨⟨e, he, h1⟩, h2⟩
    exact ⟨e, he, giftProj_eq_some.mpr ⟨h1, h2⟩⟩

theorem entryWF_gift_key {e : Key × Item} {g : GiftItem}
    (hwf : entryWF e = true) (hg : e.2 = Item.giftI g) :
    e.1 = ⟨g.listId, SortKey.gift g.id⟩ := by
  rcases e with ⟨⟨lid, sk⟩, i⟩
  simp only at hg
  cases hg
  cases sk with
  | metadata => simp [entryWF] at hwf
  | gift gid =>
    simp only [entryWF, Bool.and_eq_true, decide_eq_true_eq] at hwf
    rw [hwf.1, hwf.2]

theorem giftId_mem_giftIdsOf {s : Store} {e : Key × Item} {g : GiftItem}
    (he : e ∈ s) (hg : e.2 = Item.giftI g) : g.id ∈ giftIdsOf s := by
  rw [giftIdsOf, List.mem_filterMap]
  refine ⟨e, he, ?_⟩
  rw [hg]

theorem giftIdsOf_cons_gift {e : Key × Item} {t : Store} {g : GiftItem}
    (hg : e.2 = Item.giftI g) : giftIdsOf (e :: t) = g.id :: giftIdsOf t := by
  rw [giftIdsOf, List.filterMap_cons, hg]
  rfl

theorem giftIdsOf_cons_list {e : Key × Item} {t : Store} {l : ListItem}
    (hl : e.2 = Item.listI l) : giftIdsOf (e :: t) = giftIdsOf t := by
  rw [giftIdsOf, List.filterMap_cons, hl]
  rfl

theorem giftIdsOf_tail_nodup {e : Key × Item} {t : Store}
    (h : (giftIdsOf (e :: t)).Nodup) : (giftIdsOf t).Nodup := by
  rcases e with ⟨k, i⟩
  cases i with
  | listI l =>
    rw [giftIdsOf_cons_list rfl] at h
    exact h
  | giftI g =>
    rw [giftIdsOf_cons_gift rfl] at h
    exact h.of_cons

theorem gift_entry_unique {s : Store} (hnd : (giftIdsOf s).Nodup)
    {e1 e2 : Key × Item} {g1 g2 : GiftItem}
    (h1 : e1 ∈ s) (h2 : e2 ∈ s) (hg1 : e1.2 = Item.giftI g1)
    (hg2 : e2.2 = Item.giftI g2) (hid : g1.id = g2.id) : e1 = e2 := by
  induction s with
  | nil => cases h1
  | cons e t ih =>
    rcases List.mem_cons.mp h1 with rfl | h1t
    · rcases List.mem_cons.mp h2 with rfl | h2t
      · rfl
      · exfalso
        rw [giftIdsOf_cons_gift hg1] at hnd
        exact (List.nodup_cons.mp hnd).1
          (hid ▸ giftId_mem_giftIdsOf h2t hg2)
    · rcases List.mem_cons.mp h2 with rfl | h2t
      · exfalso
        rw [giftIdsOf_cons_gift hg2] at hnd
        exact (List.nodup_cons.mp hnd).1
          (hid ▸ giftId_mem_giftIdsOf h1t hg1)
      · exact ih (giftIdsOf_tail_nodup hnd) h1t h2t

theorem giftMatches_nil_of_claimed_id {gid : String} {t : Store}
    (hnot : gid ∉ giftIdsOf t) : giftMatches gid t = [] := by
  rw [List.eq_nil_iff_forall_not_mem]
  intro g hg
  rcases mem_giftMatches.mp hg with ⟨⟨e, he, hge⟩, hid⟩
  exact hnot (hid ▸ giftId_mem_giftIdsOf he hge)

theorem giftMatches_length_le {gid : String} {s : Store}
    (hnd : (giftIdsOf s).Nodup) : (giftMatches gid s).length ≤ 1 := by
  induction s with
  | nil => simp [giftMatches]
  | cons e t ih =>
    rcases e with ⟨k, i⟩
    cases i with
    | listI l =>
      rw [giftIdsOf_cons_list rfl] at hnd
      have : giftMatches gid ((k, Item.listI l) :: t) = giftMatches gid t := by
        rw [giftMatches, List.filterMap_cons]
        rfl
      rw [this]
      exact ih hnd
    | giftI x =>
      rw [giftIdsOf_cons_gift rfl] at hnd
      rcases List.nodup_cons.mp hnd with ⟨hx, hnd'⟩
      by_cases h : x.id = gid
      · have : giftMatches gid ((k, Item.giftI x) :: t) = x :: giftMatches gid t := by
          rw [giftMatches, List.filterMap_cons]
          simp [h, giftMatches]
        rw [this, giftMatches_nil_of_claimed_id (h ▸ hx)]
        simp
      · have : giftMatches gid ((k, Item.giftI x) :: t) = giftMatches gid t := by
          rw [giftMatches, List.filterMap_cons]
          simp [h, giftMatches]
        rw [this]
        exact ih hnd'

theorem giftMatches_eq_single {gid : String} {s : Store} {g : GiftItem}
    (hnd : (giftIdsOf s).Nodup) (h : getGiftById gid s = some g) :
    giftMatches gid s = [g] := by
  have hlen := @giftMatches_length_le gid s hnd
  rw [getGiftById] at h
  match hm : giftMatches gid s with
  | [] =>
    rw [hm] at h
    simp at h
  | [x] =>
    rw [hm] at h
    simp only [List.head?_cons, Option.some.injEq] at h
    rw [h]
  | x :: y :: t =>
    rw [hm] at hlen
    simp at hlen

theorem getGiftById_spec {s : Store} {gid : String} {g : GiftItem}
    (hwf : WF s) (h : getGiftById gid s = some g) :
    g.id = gid ∧ (⟨g.listId, SortKey.gift gid⟩, Item.giftI g) ∈ s := by
  have hmem : g ∈ giftMatches gid s := by
    rw [giftMatches_eq_single hwf.2.2 h]
    exact List.mem_singleton_self g
  rcases mem_giftMatches.mp hmem with ⟨⟨e, he, hge⟩, hid⟩
  have hk := entryWF_gift_key (hwf.1 e he) hge
  refine ⟨hid, ?_⟩
  have : e = (⟨g.listId, SortKey.gift gid⟩, Item.giftI g) := by
    rcases e with ⟨ek, ei⟩
    simp only at hge hk
    rw [hge, hk, hid]
  exact this ▸ he

theorem getGiftById_get {s : Store} {gid : String} {g : GiftItem}
    (hwf : WF s) (h : getGiftById gid s = some g) :
    s.get ⟨g.listId, SortKey.gift gid⟩ = some (Item.giftI g) :=
  get_of_mem_nodup hwf.2.1 (getGiftById_spec hwf h).2

theorem getGiftById_updateAt (u : GiftItem → GiftItem)
    (hid : ∀ x, (u x).id = x.id) {s : Store} {gid : String} {g : GiftItem}
    (hwf : WF s) (h : getGiftById gid s = some g) :
    getGiftById gid (s.updateAt ⟨g.listId, SortKey.gift gid⟩ (fun it =>
      match it with
      | Item.giftI x => Item.giftI (u x)
      | i => i)) = some (u g) := by
  have hspec := getGiftById_spec hwf h
  have hmatch : giftMatches gid (s.updateAt ⟨g.listId, SortKey.gift gid⟩
      (fun it =>
        match it with
        | Item.giftI x => Item.giftI (u x)
        | i => i)) = (giftMatches gid s).map u := by
    rw [Store.updateAt, giftMatches, List.filterMap_map, giftMatches,
      List.map_filterMap]
    apply filterMap_congr_mem
    intro e he
    simp only [Function.comp_apply]
    by_cases hk : e.1 = (⟨g.listId, SortKey.gift gid⟩ : Key)
    · rw [if_pos hk]
      cases he2 : e.2 with
      | listI l => rfl
      | giftI x =>
        show (if (u x).id = gid then some (u x) else none)
            = Option.map u (if x.id = gid then some x else none)
        rw [hid x]
        by_cases hx : x.id = gid
        · simp [hx]
        · simp [hx]
    · rw [if_neg hk]
      have hnone : (match e.2 with
          | Item.giftI x => if x.id = gid then some x else none
          | _ => none) = (none : Option GiftItem) := by
        cases he2 : e.2 with
        | listI l => rfl
        | giftI x =>
          by_cases hx : x.id = gid
          · exfalso
            have hxg : x.id = g.id := by rw [hx, hspec.1]
            have hee := gift_entry_unique hwf.2.2 he hspec.2 he2 rfl hxg
            exact hk (by rw [hee])
          · simp [hx]
      rw [hnone]
      rfl
  rw [getGiftById, hmatch, giftMatches_eq_single hwf.2.2 h]
  rfl

theorem getListById_updateAt_gift (lid lid' gid : String) (f : Item → Item)
    (s : Store) :
    getListById lid (s.updateAt ⟨lid', SortKey.gift gid⟩ f)
      = getListById lid s := by
  unfold getListById
  rw [get_updateAt_ne (by simp)]

theorem condClaimWrite_some {k : Key} {r : ClaimReq} {now : Nat} {s : Store}
    {g : GiftItem} (hget : s.get k = some (Item.giftI g))
    (hav : g.status = GStatus.available) :
    condClaimWrite k r now s = some (s.updateAt k (fun it =>
      match it with
      | Item.giftI g0 => Item.giftI (applyClaim r now g0)
      | i => i)) := by
  unfold condClaimWrite
  rw [hget]
  simp [hav]

theorem condClaimWrite_none {k : Key} {r : ClaimReq} {now : Nat} {s : Store}
    {g : GiftItem} (hget : s.get k = some (Item.giftI g))
    (hcl : g.status = GStatus.claimed) : condClaimWrite k r now s = none := by
  unfold condClaimWrite
  rw [hget]
  have hna : ¬ g.status = GStatus.available := by
    rw [hcl]
    intro hh
    cases hh
  simp [hna]

theorem get_after_claim (r : ClaimReq) (now : Nat) {k : Key} {s : Store}
    {g : GiftItem} (hget : s.get k = some (Item.giftI g)) :
    (s.updateAt k (fun it =>
      match it with
      | Item.giftI g0 => Item.giftI (applyClaim r now g0)
      | i => i)).get k = some (Item.giftI (applyClaim r now g)) := by
  rw [get_updateAt_self, hget]
  rfl

theorem claimRace_all_fail {k : Key} {rs : List (ClaimReq × Nat)} {s : Store}
    {g : GiftItem} (hget : s.get k = some (Item.giftI g))
    (hcl : g.status = GStatus.claimed) :
    claimRace k rs s = (List.replicate rs.length false, s) := by
  induction rs with
  | nil => rfl
  | cons p rest ih =>
    rcases p with ⟨r, now⟩
    rw [claimRace, condClaimWrite_none hget hcl]
    simp only [ih, List.length_cons, List.replicate_succ]

theorem count_true_replicate_false (n : Nat) :
    (List.replicate n false).count true = 0 := by
  induction n with
  | zero => rfl
  | succ m ih => simp [List.replicate_succ, List.count_cons, ih]

theorem keys_updateAt {s : Store} {k : Key} {f : Item → Item} :
    (s.updateAt k f).map Prod.fst = s.map Prod.fst := by
  induction s with
  | nil => rfl
  | cons e t ih =>
    simp only [Store.updateAt, List.map_cons] at ih ⊢
    by_cases h : e.1 = k
    · rw [if_pos h]
      simp only [List.map_cons, ih]
    · rw [if_neg h]
      simp only [List.map_cons, ih]

theorem giftIdsOf_updateAt_gift (u : GiftItem → GiftItem)
    (hid : ∀ x, (u x).id = x.id) {s : Store} {k : Key} :
    giftIdsOf (s.updateAt k (fun it =>
      match it with
      | Item.giftI x => Item.giftI (u x)
      | i => i)) = giftIdsOf s := by
  rw [Store.updateAt, giftIdsOf, List.filterMap_map, giftIdsOf]
  apply filterMap_congr_mem
  intro e he
  simp only [Function.comp_apply]
  by_cases hk : e.1 = k
  · rw [if_pos hk]
    cases he2 : e.2 with
    | listI l => rfl
    | giftI x =>
      show some (u x).id = some x.id
      rw [hid x]
  · rw [if_neg hk]

theorem wf_updateAt_gift (u : GiftItem → GiftItem)
    (hid : ∀ x, (u x).id = x.id) (hlid : ∀ x, (u x).listId = x.listId)
    {s : Store} {k : Key} (hwf : WF s) :
    WF (s.updateAt k (fun it =>
      match it with
      | Item.giftI x => Item.giftI (u x)
      | i => i)) := by
  refine ⟨?_, ?_, ?_⟩
  · intro e he
    rcases List.mem_map.mp he with ⟨⟨k0, i0⟩, he0, rfl⟩
    have h0 := hwf.1 _ he0
    dsimp only
    by_cases hk : k0 = k
    · rw [if_pos hk]
      cases i0 with
      | listI l => exact h0
      | giftI x =>
        rcases k0 with ⟨lid, sk⟩
        cases sk with
        | metadata => simp [entryWF] at h0
        | gift gid =>
          simp only [entryWF, Bool.and_eq_true, decide_eq_true_eq] at h0 ⊢
          exact ⟨by rw [hid]; exact h0.1, by rw [hlid]; exact h0.2⟩
    · rw [if_neg hk]
      exact h0
  · rw [keys_updateAt]
    exact hwf.2.1
  · rw [giftIdsOf_updateAt_gift u hid]
    exact hwf.2.2

theorem claimGift_notFound {gid : String} {r : ClaimReq} {now : Nat}
    {s : Store} (hn : getGiftById gid s = none) :
    claimGift gid r now s = (Except.error notFoundErr, s) := by
  unfold claimGift
  rw [hn]

theorem claimGift_available {gid : String} {r : ClaimReq} {now : Nat}
    {s : Store} {g : GiftItem} (hwf : WF s)
    (hg : getGiftById gid s = some g)
    (hav : g.status = GStatus.available) :
    claimGift gid r now s =
      (Except.ok (applyClaim r now g),
       s.updateAt ⟨g.listId, SortKey.gift gid⟩ (fun it =>
         match it with
         | Item.giftI g0 => Item.giftI (applyClaim r now g0)
         | i => i)) := by
  have hget := getGiftById_get hwf hg
  unfold claimGift
  rw [hg]
  dsimp only
  rw [condClaimWrite_some hget hav]
  dsimp only
  rw [getGiftById_updateAt (applyClaim r now) (fun x => rfl) hwf hg]

theorem claimGift_claimed {gid : String} {r : ClaimReq} {now : Nat}
    {s : Store} {g : GiftItem} (hwf : WF s)
    (hg : getGiftById gid s = some g)
    (hcl : g.status = GStatus.claimed) :
    claimGift gid r now s = (Except.error alreadyClaimedErr, s) := by
  have hget := getGiftById_get hwf hg
  unfold claimGift
  rw [hg]
  dsimp only
  rw [condClaimWrite_none hget hcl]

theorem unclaimGift_ok {gid owner : String} (t : Nat) {s : Store}
    {g : GiftItem} {L : ListItem} (hwf : WF s)
    (hg : getGiftById gid s = some g)
    (hL : getListById g.listId s = some L) (hown : L.ownerId = owner) :
    unclaimGift gid owner t s =
      (Except.ok (applyUnclaim t g),
       s.updateAt ⟨g.listId, SortKey.gift gid⟩ (fun it =>
         match it with
         | Item.giftI x => Item.giftI (applyUnclaim t x)
         | i => i)) := by
  unfold unclaimGift
  rw [hg]
  dsimp only
  rw [hL]
  dsimp only
  rw [if_neg (fun hh => hh hown)]
  rw [getGiftById_updateAt (applyUnclaim t) (fun x => rfl) hwf hg]

/-- C1: for every stored gift, claimGift succeeds exactly when the stored
status at the conditional write is available, in which case the single
conditional update sets status=claimed, claimedBy, claimerMessage,
claimedAt and updatedAt together and the updated gift is returned; when
the stored status is claimed the conditional check fails and the domain
error ALREADY_CLAIMED (409) is raised with the store unchanged; when no
gift with the id exists, NotFound is raised. -/
theorem C1_claimGift_conditional (gid : String) (r : ClaimReq) (now : Nat)
    (s : Store) (hwf : WF s) :
    (getGiftById gid s = none →
       claimGift gid r now s = (Except.error notFoundErr, s)) ∧
    (∀ g, getGiftById gid s = some g →
       (g.status = GStatus.available →
          claimGift gid r now s =
            (Except.ok (applyClaim r now g),
             s.updateAt ⟨g.listId, SortKey.gift gid⟩ (fun it =>
               match it with
               | Item.giftI g0 => Item.giftI (applyClaim r now g0)
               | i => i))) ∧
       (g.status = GStatus.claimed →
          claimGift gid r now s = (Except.error alreadyClaimedErr, s))) := by
  constructor
  · intro hn
    unfold claimGift
    rw [hn]
  · intro g hg
    have hget := getGiftById_get hwf hg
    constructor
    · intro hav
      unfold claimGift
      rw [hg]
      dsimp only
      rw [condClaimWrite_some hget hav]
      dsimp only
      rw [getGiftById_updateAt (applyClaim r now) (fun x => rfl) hwf hg]
    · intro hcl
      unfold claimGift
      rw [hg]
      dsimp only
      rw [condClaimWrite_none hget hcl]

theorem C1_claimGift_conditional_witness :
    WF demoStore ∧
    claimGift "g1" ⟨"Bob", some "hi"⟩ 7 demoStore =
      (Except.ok (applyClaim ⟨"Bob", some "hi"⟩ 7 demoGiftA),
       demoStore.updateAt ⟨"L1", SortKey.gift "g1"⟩ (fun it =>
         match it with
         | Item.giftI g0 => Item.giftI (applyClaim ⟨"Bob", some "hi"⟩ 7 g0)
         | i => i)) := by
  refine ⟨by decide, ?_⟩
  exact ((C1_claimGift_conditional "g1" ⟨"Bob", some "hi"⟩ 7 demoStore
    (by decide)).2 demoGiftA (by decide)).1 (by decide)

/-- C2: with a gift initially available, any serialization of the atomic
conditional writes issued by concurrently invoked claimGift calls on that
gift lets exactly the first one succeed; every other write fails its
condition (and so its call receives AlreadyClaimed).  The model uses no
lock: claimRace folds the store-level conditional write condClaimWrite,
the only concurrency-control primitive claimGift uses. -/
theorem C2_claim_race_exclusive (k : Key) (g : GiftItem)
    (rs : List (ClaimReq × Nat)) (s : Store)
    (hget : s.get k = some (Item.giftI g))
    (hav : g.status = GStatus.available) (hne : rs ≠ []) :
    (claimRace k rs s).1 = true :: List.replicate (rs.length - 1) false ∧
    (claimRace k rs s).1.count true = 1 := by
  rcases rs with _ | ⟨⟨r, now⟩, rest⟩
  · cases hne rfl
  · have hget2 := get_after_claim r now hget
    rw [claimRace, condClaimWrite_some hget hav]
    simp only []
    rw [claimRace_all_fail hget2 rfl]
    refine ⟨rfl, ?_⟩
    simp [List.count_cons, count_true_replicate_false]

theorem C2_claim_race_exclusive_witness :
    demoStore.get ⟨"L1", SortKey.gift "g1"⟩ = some (Item.giftI demoGiftA) ∧
    (claimRace ⟨"L1", SortKey.gift "g1"⟩
      [(⟨"Alice", none⟩, 1), (⟨"Bob", none⟩, 2), (⟨"Carol", none⟩, 3)]
      demoStore).1.count true = 1 :=
  ⟨by decide,
   (C2_claim_race_exclusive ⟨"L1", SortKey.gift "g1"⟩ demoGiftA
     [(⟨"Alice", none⟩, 1), (⟨"Bob", none⟩, 2), (⟨"Carol", none⟩, 3)]
     demoStore (by decide) (by decide) (by decide)).2⟩

/-- C4: for every stored list L with owner A and every caller B distinct
from A, each owner-gated operation (updateList, deleteList, createGift,
updateGift, deleteGift, unclaimGift) invoked with caller B raises
Forbidden and returns the store unchanged. -/
theorem C4_owner_isolation (listId : String) (s : Store) (L : ListItem)
    (B : String) (hL : getListById listId s = some L)
    (hne : B ≠ L.ownerId) :
    (∀ req now,
       updateList listId B req now s = (Except.error forbiddenErr, s)) ∧
    (deleteList listId B s = (Except.error forbiddenErr, s)) ∧
    (∀ req id now,
       createGift listId B req id now s = (Except.error forbiddenErr, s)) ∧
    (∀ gid g req now, getGiftById gid s = some g → g.listId = listId →
       updateGift gid B req now s = (Except.error forbiddenErr, s)) ∧
    (∀ gid g, getGiftById gid s = some g → g.listId = listId →
       deleteGift gid B s = (Except.error forbiddenErr, s)) ∧
    (∀ gid g now, getGiftById gid s = some g → g.listId = listId →
       unclaimGift gid B now s = (Except.error forbiddenErr, s)) := by
  have hOwn : L.ownerId ≠ B := fun hh => hne hh.symm
  refine ⟨?_, ?_, ?_, ?_, ?_, ?_⟩
  · intro req now
    unfold updateList
    rw [hL]
    dsimp only
    rw [if_pos hOwn]
  · unfold deleteList
    rw [hL]
    dsimp only
    rw [if_pos hOwn]
  · intro req id now
    unfold createGift
    rw [hL]
    dsimp only
    rw [if_pos hOwn]
  · intro gid g req now hg hlid
    unfold updateGift
    rw [hg]
    dsimp only
    rw [hlid, hL]
    dsimp only
    rw [if_pos hOwn]
  · intro gid g hg hlid
    unfold deleteGift
    rw [hg]
    dsimp only
    rw [hlid, hL]
    dsimp only
    rw [if_pos hOwn]
  · intro gid g now hg hlid
    unfold unclaimGift
    rw [hg]
    dsimp only
    rw [hlid, hL]
    dsimp only
    rw [if_pos hOwn]

theorem C4_owner_isolation_witness :
    getListById "L1" demoStore = some demoList ∧
    ("u2" : String) ≠ demoList.ownerId ∧
    updateList "L1" "u2" ⟨some "x", none⟩ 9 demoStore
      = (Except.error forbiddenErr, demoStore) :=
  ⟨by decide, by decide,
   (C4_owner_isolation "L1" demoStore demoList "u2" (by decide)
     (by decide)).1 ⟨some "x", none⟩ 9⟩

/-- C5 (amended): updateGift, deleteGift and unclaimGift raise NotFound
when the gift is missing; when the gift exists they raise Forbidden both
when the parent list is missing and when the caller is not its owner, and
the store is returned unchanged in every error case. -/
theorem C5_gift_ops_errors (gid owner : String) (req : UpdateGiftReq)
    (now : Nat) (s : Store) :
    (getGiftById gid s = none →
       updateGift gid owner req now s = (Except.error notFoundErr, s) ∧
       deleteGift gid owner s = (Except.error notFoundErr, s) ∧
       unclaimGift gid owner now s = (Except.error notFoundErr, s)) ∧
    (∀ g, getGiftById gid s = some g → getListById g.listId s = none →
       updateGift gid owner req now s = (Except.error forbiddenErr, s) ∧
       deleteGift gid owner s = (Except.error forbiddenErr, s) ∧
       unclaimGift gid owner now s = (Except.error forbiddenErr, s)) ∧
    (∀ g L, getGiftById gid s = some g → getListById g.listId s = some L →
       L.ownerId ≠ owner →
       updateGift gid owner req now s = (Except.error forbiddenErr, s) ∧
       deleteGift gid owner s = (Except.error forbiddenErr, s) ∧
       unclaimGift gid owner now s = (Except.error forbiddenErr, s)) := by
  refine ⟨?_, ?_, ?_⟩
  · intro hn
    refine ⟨?_, ?_, ?_⟩
    · unfold updateGift
      rw [hn]
    · unfold deleteGift
      rw [hn]
    · unfold unclaimGift
      rw [hn]
  · intro g hg hln
    refine ⟨?_, ?_, ?_⟩
    · unfold updateGift
      rw [hg]
      dsimp only
      rw [hln]
    · unfold deleteGift
      rw [hg]
      dsimp only
      rw [hln]
    · unfold unclaimGift
      rw [hg]
      dsimp only
      rw [hln]
  · intro g L hg hls hown
    refine ⟨?_, ?_, ?_⟩
    · unfold updateGift
      rw [hg]
      dsimp only
      rw [hls]
      dsimp only
      rw [if_pos hown]
    · unfold deleteGift
      rw [hg]
      dsimp only
      rw [hls]
      dsimp only
      rw [if_pos hown]
    · unfold unclaimGift
      rw [hg]
      dsimp only
      rw [hls]
      dsimp only
      rw [if_pos hown]

theorem C5_gift_ops_errors_witness :
    getGiftById "g9" orphanStore = some orphanGift ∧
    getListById orphanGift.listId orphanStore = none ∧
    updateGift "g9" "u1" noUpdate 5 orphanStore
      = (Except.error forbiddenErr, orphanStore) :=
  ⟨by decide, by decide,
   ((C5_gift_ops_errors "g9" "u1" noUpdate 5 orphanStore).2.1 orphanGift
     (by decide) (by decide)).1⟩

/-- C5 counterexample: on a store holding an orphaned gift (its parent
list record absent — a state the repository contract admits after a
crashed cascade delete), updateGift raises Forbidden, not NotFound as the
claim states. -/
theorem C5_orphan_counterexample :
    (updateGift "g9" "u1" noUpdate 5 orphanStore).1
        = Except.error forbiddenErr ∧
    ¬ (updateGift "g9" "u1" noUpdate 5 orphanStore).1
        = Except.error notFoundErr := by
  decide

/-- C10: unclaimGift by the owner is unconditional: it succeeds even when
the gift is already available, leaves status available with claimedBy,
claimerMessage and claimedAt absent, and running it twice yields the same
store as running it once at the second call's clock — every field agrees
except updatedAt, which carries the later write's timestamp. -/
theorem C10_unclaim_unconditional_idempotent (gid owner : String)
    (t1 t2 : Nat) (s : Store) (g : GiftItem) (L : ListItem) (hwf : WF s)
    (hg : getGiftById gid s = some g)
    (hL : getListById g.listId s = some L) (hown : L.ownerId = owner) :
    (unclaimGift gid owner t1 s).1 = Except.ok (applyUnclaim t1 g) ∧
    ((applyUnclaim t1 g).status = GStatus.available ∧
     (applyUnclaim t1 g).claimedBy = none ∧
     (applyUnclaim t1 g).claimerMessage = none ∧
     (applyUnclaim t1 g).claimedAt = none) ∧
    (unclaimGift gid owner t2 (unclaimGift gid owner t1 s).2).1
        = Except.ok (applyUnclaim t2 g) ∧
    (unclaimGift gid owner t2 (unclaimGift gid owner t1 s).2).2
        = (unclaimGift gid owner t2 s).2 := by
  have h1 := unclaimGift_ok t1 hwf hg hL hown
  have hwf1 : WF ((unclaimGift gid owner t1 s).2) := by
    rw [h1]
    exact wf_updateAt_gift (applyUnclaim t1) (fun x => rfl) (fun x => rfl) hwf
  have hre : getGiftById gid ((unclaimGift gid owner t1 s).2)
      = some (applyUnclaim t1 g) := by
    rw [h1]
    exact getGiftById_updateAt (applyUnclaim t1) (fun x => rfl) hwf hg
  have hL1 : getListById (applyUnclaim t1 g).listId
      ((unclaimGift gid owner t1 s).2) = some L := by
    rw [h1]
    show getListById g.listId (s.updateAt ⟨g.listId, SortKey.gift gid⟩
      (fun it =>
        match it with
        | Item.giftI x => Item.giftI (applyUnclaim t1 x)
        | i => i)) = some L
    rw [getListById_updateAt_gift]
    exact hL
  have h2 := unclaimGift_ok t2 hwf1 hre hL1 hown
  refine ⟨by rw [h1], ⟨rfl, rfl, rfl, rfl⟩, by rw [h2]; rfl, ?_⟩
  rw [h2, h1]
  dsimp only
  have hk : (⟨(applyUnclaim t1 g).listId, SortKey.gift gid⟩ : Key)
      = ⟨g.listId, SortKey.gift gid⟩ := rfl
  rw [hk, updateAt_updateAt, unclaimGift_ok t2 hwf hg hL hown]
  dsimp only
  exact congrArg (Store.updateAt s ⟨g.listId, SortKey.gift gid⟩)
    (funext fun i => by cases i <;> rfl)

theorem C10_unclaim_unconditional_idempotent_witness :
    WF demoStore ∧
    (unclaimGift "g2" "u1" 5 demoStore).1
      = Except.ok (applyUnclaim 5 demoGiftC) :=
  ⟨by decide,
   (C10_unclaim_unconditional_idempotent "g2" "u1" 5 6 demoStore demoGiftC
     demoList (by decide) (by decide) (by decide) (by decide)).1⟩

/-- C9: the public gift view of a list redacts claims: with
hideClaimedGifts = true only available gifts are returned; with
hideClaimedGifts = false every gift of the list is returned; in both
cases each element is the projection to id/title/description/url/status,
which is independent of claimedBy, claimerMessage, claimedAt and
sortOrder. -/
theorem C9_public_redaction (l : ListItem) (s : Store) :
    (l.hideClaimedGifts = true →
       getPublicGifts l s =
         ((getGiftsByList l.id s).filter
           (fun g => g.status = GStatus.available)).map toPublicGift ∧
       ∀ pg ∈ getPublicGifts l s, pg.status = GStatus.available) ∧
    (l.hideClaimedGifts = false →
       getPublicGifts l s = (getGiftsByList l.id s).map toPublicGift) ∧
    (∀ g : GiftItem,
       toPublicGift g = toPublicGift
         { g with claimedBy := none, claimerMessage := none,
                  claimedAt := none, sortOrder := 0 }) := by
  refine ⟨?_, ?_, ?_⟩
  · intro hh
    constructor
    · unfold getPublicGifts
      rw [hh]
      simp
    · intro pg hpg
      unfold getPublicGifts at hpg
      rw [hh] at hpg
      simp only [if_true] at hpg
      rcases List.mem_map.mp hpg with ⟨g, hgmem, rfl⟩
      have hst := (List.mem_filter.mp hgmem).2
      exact of_decide_eq_true hst
  · intro hh
    unfold getPublicGifts
    rw [hh]
    simp
  · intro g
    rfl

theorem C9_public_redaction_witness :
    demoListHide.hideClaimedGifts = true ∧
    ∀ pg ∈ getPublicGifts demoListHide demoStore,
      pg.status = GStatus.available :=
  ⟨by decide,
   ((C9_public_redaction demoListHide demoStore).1 (by decide)).2⟩

theorem giftsByList_counts (listId : String) (s : Store) :
    (getGiftsByList listId s).length
      = (s.filter (isGiftEntryOf listId)).length ∧
    ((getGiftsByList listId s).filter
        (fun g => g.status = GStatus.claimed)).length
      = (s.filter (isClaimedGiftEntry listId)).length := by
  induction s with
  | nil => exact ⟨rfl, rfl⟩
  | cons e t ih =>
    rcases e with ⟨⟨pk, sk⟩, i⟩
    cases sk with
    | metadata =>
      simpa [getGiftsByList, isGiftEntryOf, isClaimedGiftEntry,
        List.filterMap_cons, List.filter_cons] using ih
    | gift gid =>
      cases i with
      | listI l =>
        simpa [getGiftsByList, isGiftEntryOf, isClaimedGiftEntry,
          List.filterMap_cons, List.filter_cons] using ih
      | giftI g =>
        by_cases hpk : pk = listId
        · by_cases hcl : g.status = GStatus.claimed
          · simpa [getGiftsByList, isGiftEntryOf, isClaimedGiftEntry,
              List.filterMap_cons, List.filter_cons, hpk, hcl] using ih
          · simpa [getGiftsByList, isGiftEntryOf, isClaimedGiftEntry,
              List.filterMap_cons, List.filter_cons, hpk, hcl] using ih
        · simpa [getGiftsByList, isGiftEntryOf, isClaimedGiftEntry,
            List.filterMap_cons, List.filter_cons, hpk] using ih

/-- C8: every list returned by getListsByOwner carries giftCount equal to
the number of gift records currently stored in its partition, and
claimedCount equal to the number of those records whose status is
claimed: both counts are recomputed from the store at read time by
fetching the list's gifts. -/
theorem C8_counts_reflect_store (ownerId : String) (s : Store) :
    ∀ el ∈ getListsByOwner ownerId s,
      el.giftCount
          = (s.filter (isGiftEntryOf el.base.id)).length ∧
      el.claimedCount
          = (s.filter (isClaimedGiftEntry el.base.id)).length := by
  intro el hel
  rcases List.mem_map.mp hel with ⟨l, hl, rfl⟩
  exact ⟨(giftsByList_counts l.id s).1, (giftsByList_counts l.id s).2⟩

theorem C8_counts_reflect_store_witness :
    (⟨demoList, 2, 1⟩ : EnrichedList) ∈ getListsByOwner "u1" demoStore ∧
    ((2 : Nat)
        = (demoStore.filter (isGiftEntryOf "L1")).length ∧
     (1 : Nat) = (demoStore.filter (isClaimedGiftEntry "L1")).length) :=
  ⟨by decide,
   C8_counts_reflect_store "u1" demoStore ⟨demoList, 2, 1⟩ (by decide)⟩

/-- C6: deleteList invoked by the owner succeeds and deletes the list's
METADATA record and every gift record of its partition, so getListById
returns none and getGiftsByList returns the empty list afterwards; the
deletes are issued in batches of at most 25 keys. -/
theorem C6_deleteList_cascade (listId ownerId : String) (s : Store)
    (L : ListItem) (hwf : WF s) (hL : getListById listId s = some L)
    (hown : L.ownerId = ownerId) :
    (deleteList listId ownerId s).1 = Except.ok () ∧
    getListById listId (deleteList listId ownerId s).2 = none ∧
    getGiftsByList listId (deleteList listId ownerId s).2 = [] ∧
    ∀ b ∈ deleteListBatches listId s, b.length ≤ 25 := by
  have heq : deleteList listId ownerId s =
      (Except.ok (), deleteKeys (deleteListKeys listId s) s) := by
    unfold deleteList
    rw [hL]
    dsimp only
    rw [if_neg (fun hh => hh hown), foldl_deleteKeys]
    simp only [deleteListBatches]
    rw [toChunks_flatten]
  refine ⟨by rw [heq], ?_, ?_, ?_⟩
  · rw [heq]
    unfold getListById
    have hnone : (deleteKeys (deleteListKeys listId s) s).get
        ⟨listId, SortKey.metadata⟩ = none := by
      rw [get_eq_none]
      intro e he hk
      rcases mem_deleteKeys.mp he with ⟨-, hnotin⟩
      apply hnotin
      rw [hk]
      show (⟨listId, SortKey.metadata⟩ : Key) ∈ deleteListKeys listId s
      unfold deleteListKeys
      exact List.mem_cons_self _ _
    rw [hnone]
  · rw [heq]
    dsimp only
    rw [getGiftsByList, List.filterMap_eq_nil_iff]
    intro e he
    rcases mem_deleteKeys.mp he with ⟨hes, hnotin⟩
    rcases e with ⟨⟨pk, sk⟩, i⟩
    cases sk with
    | metadata => rfl
    | gift gid =>
      cases i with
      | listI l => rfl
      | giftI g =>
        show (if pk = listId then some g else none) = none
        by_cases hpk : pk = listId
        · exfalso
          apply hnotin
          have hent := hwf.1 _ hes
          simp only [entryWF, Bool.and_eq_true, decide_eq_true_eq] at hent
          have hgmem : g ∈ getGiftsByList listId s := by
            rw [getGiftsByList, List.mem_filterMap]
            refine ⟨(⟨pk, SortKey.gift gid⟩, Item.giftI g), hes, ?_⟩
            show (if pk = listId then some g else none) = some g
            rw [if_pos hpk]
          show (⟨pk, SortKey.gift gid⟩ : Key) ∈ deleteListKeys listId s
          unfold deleteListKeys
          refine List.mem_cons_of_mem _ (List.mem_map.mpr ⟨g, hgmem, ?_⟩)
          rw [hpk, hent.1]
        · rw [if_neg hpk]
  · intro b hb
    exact toChunks_mem_length hb

theorem C6_deleteList_cascade_witness :
    WF demoStore ∧
    getListById "L1" (deleteList "L1" "u1" demoStore).2 = none ∧
    getGiftsByList "L1" (deleteList "L1" "u1" demoStore).2 = [] := by
  refine ⟨by decide, ?_, ?_⟩
  · exact (C6_deleteList_cascade "L1" "u1" demoStore demoList (by decide)
      (by decide) (by decide)).2.1
  · exact (C6_deleteList_cascade "L1" "u1" demoStore demoList (by decide)
      (by decide) (by decide)).2.2.1

/-- C7: the code violates the claim at this input: deleteList("L") on a
26-gift list issues two batches with the list's METADATA record in the
first; after a crash that applied only batch one, two gift records of "L"
remain orphaned, and re-invoking deleteList raises NotFound with the
store unchanged instead of converging to full deletion. -/
theorem C7_retry_after_crash_fails :
    getGiftsByList "L" crashStore ≠ [] ∧
    deleteList "L" "u" crashStore = (Except.error notFoundErr, crashStore) := by
  constructor
  · decide
  · have hn : getListById "L" crashStore = none := by decide
    unfold deleteList
    rw [hn]

theorem inv_of_sub {s t : Store} (hsub : ∀ e ∈ t, e ∈ s)
    (h : InvStore s) : InvStore t :=
  fun e he => h e (hsub e he)

theorem inv_put {s : Store} {k : Key} {v : Item} (h : InvStore s)
    (hv : itemOK v = true) : InvStore (s.put k v) := by
  intro e he
  rcases List.mem_cons.mp he with rfl | he2
  · exact hv
  · exact h e (List.mem_filter.mp he2).1

theorem inv_updateAt {s : Store} {k : Key} {f : Item → Item}
    (h : InvStore s)
    (hf : ∀ i, itemOK i = true → itemOK (f i) = true) :
    InvStore (s.updateAt k f) := by
  intro e he
  rcases List.mem_map.mp he with ⟨e0, he0, rfl⟩
  by_cases hk : e0.1 = k
  · rw [if_pos hk]
    exact hf e0.2 (h e0 he0)
  · rw [if_neg hk]
    exact h e0 he0

theorem inv_del {s : Store} {k : Key} (h : InvStore s) :
    InvStore (s.del k) :=
  inv_of_sub (fun e he => (mem_del.mp he).1) h

theorem inv_deleteKeys {ks : List Key} {s : Store} (h : InvStore s) :
    InvStore (deleteKeys ks s) :=
  inv_of_sub (fun e he => (mem_deleteKeys.mp he).1) h

theorem giftOK_applyGiftUpdate (req : UpdateGiftReq) (now : Nat)
    (g : GiftItem) : giftOK (applyGiftUpdate req now g) = giftOK g := rfl

theorem giftOK_applyClaim (r : ClaimReq) (now : Nat) (g : GiftItem) :
    giftOK (applyClaim r now g) = true := by
  simp [giftOK, applyClaim]

theorem giftOK_applyUnclaim (now : Nat) (g : GiftItem) :
    giftOK (applyUnclaim now g) = true := by
  simp [giftOK, applyUnclaim]

theorem inv_condClaimWrite {k : Key} {r : ClaimReq} {now : Nat}
    {s s1 : Store} (h : condClaimWrite k r now s = some s1)
    (hinv : InvStore s) : InvStore s1 := by
  unfold condClaimWrite at h
  cases hg : s.get k with
  | none =>
    rw [hg] at h
    cases h
  | some it =>
    rw [hg] at h
    cases it with
    | listI l => cases h
    | giftI g =>
      dsimp only at h
      by_cases hav : g.status = GStatus.available
      · rw [if_pos hav] at h
        cases h
        apply inv_updateAt hinv
        intro i hi
        cases i with
        | listI l => exact hi
        | giftI x =>
          show giftOK (applyClaim r now x) = true
          exact giftOK_applyClaim r now x
      · rw [if_neg hav] at h
        cases h

theorem stable_updateAt {s : Store} {k : Key} {f : Item → Item}
    (hf : ∀ i, sameClaimState (f i) i) :
    ∀ e ∈ s.updateAt k f, ∃ e0 ∈ s, e0.1 = e.1 ∧ sameClaimState e.2 e0.2 := by
  intro e he
  rcases List.mem_map.mp he with ⟨e0, he0, rfl⟩
  by_cases hk : e0.1 = k
  · rw [if_pos hk]
    exact ⟨e0, he0, rfl, hf e0.2⟩
  · rw [if_neg hk]
    exact ⟨e0, he0, rfl, sameClaimState_refl e0.2⟩

theorem stable_self {s : Store} :
    ∀ e ∈ s, ∃ e0 ∈ s, e0.1 = e.1 ∧ sameClaimState e.2 e0.2 :=
  fun e he => ⟨e, he, rfl, sameClaimState_refl e.2⟩

/-- C3: every repository operation preserves the gift-state invariant
(status is available or claimed by type; claimedBy and claimedAt are
present iff status is claimed, claimerMessage only when claimed): all
eight operations preserve InvStore; a newly created gift is available
with no claim fields; a successful claimGift starts from a gift observed
available and sets the claim fields together (applyClaim); a successful
unclaimGift clears them together (applyUnclaim); and updateList and
updateGift leave every stored record's status and claim fields
unchanged, so no other status transition exists. -/
theorem C3_gift_state_invariant (s : Store) (hwf : WF s)
    (hinv : InvStore s) :
    (∀ ownerId req id sc now,
       InvStore (createList ownerId req id sc now s).2) ∧
    (∀ listId ownerId req now,
       InvStore (updateList listId ownerId req now s).2 ∧
       ∀ e ∈ (updateList listId ownerId req now s).2,
         ∃ e0 ∈ s, e0.1 = e.1 ∧ sameClaimState e.2 e0.2) ∧
    (∀ listId ownerId, InvStore (deleteList listId ownerId s).2) ∧
    (∀ listId ownerId req id now,
       InvStore (createGift listId ownerId req id now s).2 ∧
       ∀ g, (createGift listId ownerId req id now s).1 = Except.ok g →
         g.status = GStatus.available ∧ g.claimedBy = none ∧
         g.claimerMessage = none ∧ g.claimedAt = none) ∧
    (∀ gid ownerId req now,
       InvStore (updateGift gid ownerId req now s).2 ∧
       ∀ e ∈ (updateGift gid ownerId req now s).2,
         ∃ e0 ∈ s, e0.1 = e.1 ∧ sameClaimState e.2 e0.2) ∧
    (∀ gid ownerId, InvStore (deleteGift gid ownerId s).2) ∧
    (∀ gid r now,
       InvStore (claimGift gid r now s).2 ∧
       ∀ g2, (claimGift gid r now s).1 = Except.ok g2 →
         ∃ g, getGiftById gid s = some g ∧ g.status = GStatus.available ∧
           g2 = applyClaim r now g) ∧
    (∀ gid ownerId now,
       InvStore (unclaimGift gid ownerId now s).2 ∧
       ∀ g2, (unclaimGift gid ownerId now s).1 = Except.ok g2 →
         ∃ g, getGiftById gid s = some g ∧ g2 = applyUnclaim now g) := by
  refine ⟨?_, ?_, ?_, ?_, ?_, ?_, ?_, ?_⟩
  · intro ownerId req id sc now
    exact inv_put hinv rfl
  · intro listId ownerId req now
    constructor
    · unfold updateList
      cases hx : getListById listId s with
      | none => exact hinv
      | some ex =>
        try dsimp only
        by_cases hc : ex.ownerId ≠ ownerId
        · rw [if_pos hc]
          exact hinv
        · rw [if_neg hc]
          try dsimp only
          cases hy : getListById listId (s.updateAt ⟨listId, SortKey.metadata⟩
            (fun it =>
              match it with
              | Item.listI l => Item.listI (applyListUpdate req now l)
              | i => i)) with
          | none =>
            try dsimp only
            apply inv_updateAt hinv
            intro i hi
            cases i with
            | listI l => rfl
            | giftI x => exact hi
          | some l =>
            try dsimp only
            apply inv_updateAt hinv
            intro i hi
            cases i with
            | listI l2 => rfl
            | giftI x => exact hi
    · unfold updateList
      cases hx : getListById listId s with
      | none => exact stable_self
      | some ex =>
        try dsimp only
        by_cases hc : ex.ownerId ≠ ownerId
        · rw [if_pos hc]
          exact stable_self
        · rw [if_neg hc]
          try dsimp only
          cases hy : getListById listId (s.updateAt ⟨listId, SortKey.metadata⟩
            (fun it =>
              match it with
              | Item.listI l => Item.listI (applyListUpdate req now l)
              | i => i)) with
          | none =>
            try dsimp only
            apply stable_updateAt
            intro i
            cases i with
            | listI l => trivial
            | giftI x => exact ⟨rfl, rfl, rfl, rfl⟩
          | some l =>
            try dsimp only
            apply stable_updateAt
            intro i
            cases i with
            | listI l2 => trivial
            | giftI x => exact ⟨rfl, rfl, rfl, rfl⟩
  · intro listId ownerId
    unfold deleteList
    cases hx : getListById listId s with
    | none => exact hinv
    | some ex =>
      try dsimp only
      by_cases hc : ex.ownerId ≠ ownerId
      · rw [if_pos hc]
        exact hinv
      · rw [if_neg hc]
        try dsimp only
        rw [foldl_deleteKeys]
        exact inv_deleteKeys hinv
  · intro listId ownerId req id now
    constructor
    · unfold createGift
      cases hx : getListById listId s with
      | none => exact hinv
      | some l =>
        try dsimp only
        by_cases hc : l.ownerId ≠ ownerId
        · rw [if_pos hc]
          exact hinv
        · rw [if_neg hc]
          try dsimp only
          apply inv_put hinv
          simp [itemOK, giftOK]
    · intro g hok
      unfold createGift at hok
      revert hok
      cases hx : getListById listId s with
      | none =>
        intro hok
        simp at hok
      | some l =>
        try dsimp only
        by_cases hc : l.ownerId ≠ ownerId
        · rw [if_pos hc]
          intro hok
          simp at hok
        · rw [if_neg hc]
          intro hok
          simp only [Except.ok.injEq] at hok
          rw [← hok]
          exact ⟨rfl, rfl, rfl, rfl⟩
  · intro gid ownerId req now
    constructor
    · unfold updateGift
      cases hx : getGiftById gid s with
      | none => exact hinv
      | some g =>
        try dsimp only
        cases hy : getListById g.listId s with
        | none => exact hinv
        | some l =>
          try dsimp only
          by_cases hc : l.ownerId ≠ ownerId
          · rw [if_pos hc]
            exact hinv
          · rw [if_neg hc]
            try dsimp only
            cases hz : getGiftById gid (s.updateAt ⟨g.listId, SortKey.gift gid⟩
              (fun it =>
                match it with
                | Item.giftI x => Item.giftI (applyGiftUpdate req now x)
                | i => i)) with
            | none =>
              try dsimp only
              apply inv_updateAt hinv
              intro i hi
              cases i with
              | listI l2 => rfl
              | giftI x =>
                show giftOK (applyGiftUpdate req now x) = true
                rw [giftOK_applyGiftUpdate]
                exact hi
            | some g2 =>
              try dsimp only
              apply inv_updateAt hinv
              intro i hi
              cases i with
              | listI l2 => rfl
              | giftI x =>
                show giftOK (applyGiftUpdate req now x) = true
                rw [giftOK_applyGiftUpdate]
                exact hi
    · unfold updateGift
      cases hx : getGiftById gid s with
      | none => exact stable_self
      | some g =>
        try dsimp only
        cases hy : getListById g.listId s with
        | none => exact stable_self
        | some l =>
          try dsimp only
          by_cases hc : l.ownerId ≠ ownerId
          · rw [if_pos hc]
            exact stable_self
          · rw [if_neg hc]
            try dsimp only
            cases hz : getGiftById gid (s.updateAt ⟨g.listId, SortKey.gift gid⟩
              (fun it =>
                match it with
                | Item.giftI x => Item.giftI (applyGiftUpdate req now x)
                | i => i)) with
            | none =>
              try dsimp only
              apply stable_updateAt
              intro i
              cases i with
              | listI l2 => trivial
              | giftI x => exact ⟨rfl, rfl, rfl, rfl⟩
            | some g2 =>
              try dsimp only
              apply stable_updateAt
              intro i
              cases i with
              | listI l2 => trivial
              | giftI x => exact ⟨rfl, rfl, rfl, rfl⟩
  · intro gid ownerId
    unfold deleteGift
    cases hx : getGiftById gid s with
    | none => exact hinv
    | some g =>
      try dsimp only
      cases hy : getListById g.listId s with
      | none => exact hinv
      | some l =>
        try dsimp only
        by_cases hc : l.ownerId ≠ ownerId
        · rw [if_pos hc]
          exact hinv
        · rw [if_neg hc]
          exact inv_del hinv
  · intro gid r now
    constructor
    · unfold claimGift
      cases hx : getGiftById gid s with
      | none => exact hinv
      | some g =>
        try dsimp only
        cases hw : condClaimWrite ⟨g.listId, SortKey.gift gid⟩ r now s with
        | none => exact hinv
        | some s1 =>
          try dsimp only
          cases hz : getGiftById gid s1 with
          | none => exact inv_condClaimWrite hw hinv
          | some g2 => exact inv_condClaimWrite hw hinv
    · intro g2 hok
      cases hgb : getGiftById gid s with
      | none =>
        rw [claimGift_notFound hgb] at hok
        simp at hok
      | some g =>
        cases hst : g.status with
        | available =>
          rw [claimGift_available hwf hgb hst] at hok
          simp only [Except.ok.injEq] at hok
          exact ⟨g, rfl, hst, hok.symm⟩
        | claimed =>
          rw [claimGift_claimed hwf hgb hst] at hok
          simp at hok
  · intro gid ownerId now
    constructor
    · unfold unclaimGift
      cases hx : getGiftById gid s with
      | none => exact hinv
      | some g =>
        try dsimp only
        cases hy : getListById g.listId s with
        | none => exact hinv
        | some l =>
          try dsimp only
          by_cases hc : l.ownerId ≠ ownerId
          · rw [if_pos hc]
            exact hinv
          · rw [if_neg hc]
            try dsimp only
            cases hz : getGiftById gid (s.updateAt ⟨g.listId, SortKey.gift gid⟩
              (fun it =>
                match it with
                | Item.giftI x => Item.giftI (applyUnclaim now x)
                | i => i)) with
            | none =>
              try dsimp only
              apply inv_updateAt hinv
              intro i hi
              cases i with
              | listI l2 => rfl
              | giftI x =>
                show giftOK (applyUnclaim now x) = true
                exact giftOK_applyUnclaim now x
            | some g2 =>
              try dsimp only
              apply inv_updateAt hinv
              intro i hi
              cases i with
              | listI l2 => rfl
              | giftI x =>
                show giftOK (applyUnclaim now x) = true
                exact giftOK_applyUnclaim now x
    · intro g2 hok
      cases hgb : getGiftById gid s with
      | none =>
        unfold unclaimGift at hok
        rw [hgb] at hok
        simp at hok
      | some g =>
        cases hls : getListById g.listId s with
        | none =>
          unfold unclaimGift at hok
          rw [hgb] at hok
          try dsimp only at hok
          rw [hls] at hok
          simp at hok
        | some L =>
          by_cases howner : L.ownerId = ownerId
          · rw [unclaimGift_ok now hwf hgb hls howner] at hok
            simp only [Except.ok.injEq] at hok
            exact ⟨g, rfl, hok.symm⟩
          · unfold unclaimGift at hok
            rw [hgb] at hok
            try dsimp only at hok
            rw [hls] at hok
            try dsimp only at hok
            rw [if_pos howner] at hok
            simp at hok

theorem C3_gift_state_invariant_witness :
    WF demoStore ∧ InvStore demoStore ∧
    InvStore (claimGift "g1" ⟨"Bob", none⟩ 7 demoStore).2 :=
  ⟨by decide, by decide,
   ((C3_gift_state_invariant demoStore (by decide)
      (by decide)).2.2.2.2.2.2.1 "g1" ⟨"Bob", none⟩ 7).1⟩

end GiftList
